import Mathlib

/-!
A verification development for the bus-mapping BALANCE opcode handler
(`bus-mapping/src/evm/opcodes/balance.rs`) and the identity-precompile
EVM-circuit gadget
(`zkevm-circuits/src/evm_circuit/execution/precompiles/identity.rs`).

The handler `Balance.gen_associated_ops` is translated directly from the
source.  The `CircuitInputStateRef` primitives it calls (`new_step`,
`stack_pop`, `call_context_read`, `push_op_reversible`, `account_read`,
`stack_push`) and the state-database queries (`get_account`,
`check_account_in_access_list`) live outside the provided sources and are
modelled from the specification of the State Reference builder facade
(spec sections 4.2 and 6).  Machine words are modelled as `Nat`; an EVM
word fits in 256 bits and an address is the low 160 bits of a word.
-/

/-- Modelled from the spec (section 7): the error taxonomy surfaced by
fallible State Reference operations — trace inconsistency (verification
mode), internal invariant violation (e.g. stack underflow or overflow),
missing call context, and a malformed or too-short trace window. -/
inductive Err where
  | TraceInconsistency
  | InvariantViolation
  | MissingContext
  | InvalidGethExecTrace
deriving DecidableEq, Repr

/-- Read/write direction tag of a recorded operation. -/
inductive RW where
  | READ
  | WRITE
deriving DecidableEq, Repr

/-- Call-context field selectors used by the BALANCE handler. -/
inductive CallContextField where
  | TxId
  | RwCounterEndOfReversion
  | IsPersistent
deriving DecidableEq, Repr

/-- Account field selectors used by the BALANCE handler. -/
inductive AccountField where
  | CodeHash
  | Balance
deriving DecidableEq, Repr

/-- Typed payload of a recorded operation: one constructor per operation
kind touched by the BALANCE handler (stack, call context, transaction
access list, account field). -/
inductive Op where
  | StackOp (call_id : Nat) (address : Nat) (value : Nat)
  | CallContextOp (call_id : Nat) (field : CallContextField) (value : Nat)
  | TxAccessListAccountOp (tx_id : Nat) (address : Nat)
      (is_warm : Bool) (is_warm_prev : Bool)
  | AccountOp (address : Nat) (field : AccountField)
      (value : Nat) (value_prev : Nat)
deriving DecidableEq, Repr

/-- A recorded operation: a direction tag together with a typed payload,
mirroring `Operation<T>` wrapping `RW` and the op in the operation
container. -/
structure Operation where
  rw : RW
  op : Op
deriving DecidableEq, Repr

/-- An account record of the state database (nonce, balance, code hash). -/
structure Account where
  nonce : Nat
  balance : Nat
  code_hash : Nat
deriving DecidableEq, Repr

/-- Modelled from the spec: the all-zero account; `get_account` on an
address that is absent from the state database returns this account
together with `found = false`. -/
def Account.zero : Account := ⟨0, 0, 0⟩

/-- Modelled from the spec: an account is empty when nonce, balance and
code hash are all zero; existence of an account is `!is_empty`. -/
def Account.is_empty (a : Account) : Bool :=
  a.nonce == 0 && a.balance == 0 && a.code_hash == 0

/-- Modelled from the spec (section 6): the state-database view consumed
by the translator — an account map and the per-transaction access list
of warm addresses. -/
structure StateDB where
  accounts : List (Nat × Account)
  access_list : List Nat
deriving DecidableEq, Repr

/-- Modelled from the spec: `get_account(address) -> (found, account)`;
a missing address yields `(false, Account.zero)`. -/
def StateDB.get_account (sdb : StateDB) (address : Nat) : Bool × Account :=
  match sdb.accounts.lookup address with
  | some a => (true, a)
  | none => (false, Account.zero)

/-- Modelled from the spec: access-list membership query — whether the
address is already warm in the current transaction. -/
def StateDB.check_account_in_access_list (sdb : StateDB) (address : Nat) : Bool :=
  sdb.access_list.contains address

/-- Modelled from the spec: access-list insertion; the list grows
monotonically and an address is present at most once. -/
def StateDB.add_account_to_access_list (sdb : StateDB) (address : Nat) : StateDB :=
  if sdb.access_list.contains address then sdb
  else { sdb with access_list := address :: sdb.access_list }

/-- Per-call-frame bookkeeping consulted by the handler: call id,
reversion boundary and persistence flag. -/
structure Call where
  call_id : Nat
  rw_counter_end_of_reversion : Nat
  is_persistent : Bool
deriving DecidableEq, Repr

/-- One step of the raw interpreter trace: program counter, instruction
byte, remaining gas, and the traced stack (top element last, as in the
external tracer's stack layout). -/
structure GethExecStep where
  pc : Nat
  op : Nat
  gas : Nat
  stack : List Nat
deriving DecidableEq, Repr

/-- The traced stack top; fails on an empty traced stack, mirroring the
fallible `stack.last()` accessor of the trace. -/
def GethExecStep.stack_last (g : GethExecStep) : Except Err Nat :=
  match g.stack.getLast? with
  | some v => .ok v
  | none => .error .InvalidGethExecTrace

/-- The per-instruction witness record: trace data of the step plus the
ordered list of operations this step generated (the step's
bus-mapping instance, with each operation listed in place of its
sequence number). -/
structure ExecStep where
  pc : Nat
  instruction : Nat
  gas_left : Nat
  call_id : Nat
  ops : List Operation
deriving DecidableEq, Repr

/-- The State Reference: the mutable builder facade handlers record
through.  It owns the operation container (`ops`, append-only, the list
position is the operation's sequence number), the tracked stack of the
current call, the current call context, the transaction id, the state
database view and the pending-reversal list of the active call. -/
structure CircuitInputStateRef where
  ops : List Operation
  stack : List Nat
  call? : Option Call
  tx_id : Nat
  sdb : StateDB
  pending_reversals : List Operation
deriving DecidableEq, Repr

/-- Modelled from the spec: the current call context; querying it with no
active call frame is a Missing-Context failure. -/
def CircuitInputStateRef.call (s : CircuitInputStateRef) : Except Err Call :=
  match s.call? with
  | some c => .ok c
  | none => .error .MissingContext

/-- Append one operation both to the operation container and to the
execution step's operation list. -/
def CircuitInputStateRef.record (s : CircuitInputStateRef) (e : ExecStep)
    (op : Operation) : CircuitInputStateRef × ExecStep :=
  ({ s with ops := s.ops ++ [op] }, { e with ops := e.ops ++ [op] })

/-- Modelled from the spec: create the Execution Step Record for one trace
step; requires an active call frame (its call id is part of the record). -/
def CircuitInputStateRef.new_step (s : CircuitInputStateRef)
    (g : GethExecStep) : Except Err ExecStep :=
  match s.call? with
  | some c => .ok { pc := g.pc, instruction := g.op, gas_left := g.gas,
                    call_id := c.call_id, ops := [] }
  | none => .error .MissingContext

/-- Modelled from the spec: pop the tracked top-of-stack slot of the
current call, recording a stack Read at the slot's stack address
(`1024 - depth`); fails on an empty stack or a missing call frame. -/
def CircuitInputStateRef.stack_pop (s : CircuitInputStateRef)
    (e : ExecStep) : Except Err (Nat × CircuitInputStateRef × ExecStep) :=
  match s.call? with
  | none => .error .MissingContext
  | some c =>
    match s.stack with
    | [] => .error .InvariantViolation
    | v :: rest =>
      let (s1, e1) :=
        CircuitInputStateRef.record { s with stack := rest } e
          ⟨.READ, .StackOp c.call_id (1024 - s.stack.length) v⟩
      .ok (v, s1, e1)

/-- Modelled from the spec: push a value onto the tracked stack of the
current call, recording a stack Write at the new top slot; fails on stack
overflow or a missing call frame. -/
def CircuitInputStateRef.stack_push (s : CircuitInputStateRef)
    (e : ExecStep) (value : Nat) :
    Except Err (CircuitInputStateRef × ExecStep) :=
  match s.call? with
  | none => .error .MissingContext
  | some c =>
    if 1024 ≤ s.stack.length then .error .InvariantViolation
    else
      let (s1, e1) :=
        CircuitInputStateRef.record { s with stack := value :: s.stack } e
          ⟨.WRITE, .StackOp c.call_id (1024 - (s.stack.length + 1)) value⟩
      .ok (s1, e1)

/-- Modelled from the spec: record a Read of an immutable-for-the-call
context field. -/
def CircuitInputStateRef.call_context_read (s : CircuitInputStateRef)
    (e : ExecStep) (call_id : Nat) (field : CallContextField) (value : Nat) :
    Except Err (CircuitInputStateRef × ExecStep) :=
  .ok (CircuitInputStateRef.record s e ⟨.READ, .CallContextOp call_id field value⟩)

/-- The inverse of an operation payload: the same key with value and
previous value swapped, used for the pending-reversal list. -/
def Op.reverse : Op → Op
  | .StackOp c a v => .StackOp c a v
  | .CallContextOp c f v => .CallContextOp c f v
  | .TxAccessListAccountOp t a w wp => .TxAccessListAccountOp t a wp w
  | .AccountOp a f v vp => .AccountOp a f vp v

/-- Modelled from the spec: apply a recorded write to the state-database
view (a transaction-access-list write marks its address warm). -/
def StateDB.apply_op (sdb : StateDB) : Op → StateDB
  | .TxAccessListAccountOp _ a true _ => sdb.add_account_to_access_list a
  | _ => sdb

/-- Modelled from the spec: record a reversible Write — append the forward
write now, apply its effect to the state-database view, and register the
inverse write in the active call's pending-reversal list; fails with a
missing call frame. -/
def CircuitInputStateRef.push_op_reversible (s : CircuitInputStateRef)
    (e : ExecStep) (op : Op) :
    Except Err (CircuitInputStateRef × ExecStep) :=
  match s.call? with
  | none => .error .MissingContext
  | some _ =>
    let (s1, e1) :=
      CircuitInputStateRef.record
        { s with sdb := s.sdb.apply_op op,
                 pending_reversals := ⟨.WRITE, op.reverse⟩ :: s.pending_reversals }
        e ⟨.WRITE, op⟩
    .ok (s1, e1)

/-- Modelled from the spec: record a Read of an account field; for a Read
the previous value equals the value. -/
def CircuitInputStateRef.account_read (s : CircuitInputStateRef)
    (e : ExecStep) (address : Nat) (field : AccountField) (value : Nat) :
    Except Err (CircuitInputStateRef × ExecStep) :=
  .ok (CircuitInputStateRef.record s e ⟨.READ, .AccountOp address field value value⟩)

/-- The low 160 bits of a word, as in `to_address`. -/
def toAddress (w : Nat) : Nat := w % 2 ^ 160

/-- The verification-mode cross-check on the popped address
(`assert_eq!(address_word, geth_step.stack.last()?)` under the
`enable-stack` feature): compiled out when the flag is off; when on, a
failing traced-stack access propagates and a value mismatch is a
Trace-Inconsistency failure. -/
def stackAssertEq (enable_stack : Bool) (g : GethExecStep) (w : Nat) :
    Except Err Unit :=
  if enable_stack then
    match g.stack_last with
    | .error e => .error e
    | .ok top => if w = top then .ok () else .error .TraceInconsistency
  else .ok ()

/-- The verification-mode cross-check on the pushed balance
(`assert_eq!(geth_steps[1].stack.last()?, balance)` under the
`enable-stack` feature): needs a second trace step in the window; a
missing step or traced-stack top is a trace-window failure and a value
mismatch is a Trace-Inconsistency failure. -/
def stackAssertEqNext (enable_stack : Bool) (geth_steps : List GethExecStep)
    (w : Nat) : Except Err Unit :=
  if enable_stack then
    match geth_steps with
    | _ :: g1 :: _ =>
      match g1.stack_last with
      | .error e => .error e
      | .ok top => if top = w then .ok () else .error .TraceInconsistency
    | _ => .error .InvalidGethExecTrace
  else .ok ()

/-- `Balance::gen_associated_ops`, translated from
`bus-mapping/src/evm/opcodes/balance.rs`.  The `enable_stack` flag models
the `enable-stack` compile-time feature.  The returned pair carries the
handler's result alongside the state as mutated so far, mirroring the
in-place mutation through `&mut CircuitInputStateRef`: on an error the
operations recorded before the failing primitive remain appended. -/
def Balance.gen_associated_ops (enable_stack : Bool)
    (state : CircuitInputStateRef) (geth_steps : List GethExecStep) :
    Except Err (List ExecStep) × CircuitInputStateRef :=
  match geth_steps with
  | [] => (.error .InvalidGethExecTrace, state)
  | geth_step :: _ =>
    match state.new_step geth_step with
    | .error e => (.error e, state)
    | .ok exec_step =>
      -- Read account address from stack.
      match state.stack_pop exec_step with
      | .error e => (.error e, state)
      | .ok (address_word, s1, e1) =>
        let address := toAddress address_word
        match stackAssertEq enable_stack geth_step address_word with
        | .error e => (.error e, s1)
        | .ok _ =>
          -- Read transaction ID, rw_counter_end_of_reversion, and
          -- is_persistent from call context.
          match s1.call with
          | .error e => (.error e, s1)
          | .ok c1 =>
            match s1.call_context_read e1 c1.call_id .TxId s1.tx_id with
            | .error e => (.error e, s1)
            | .ok (s2, e2) =>
              match s2.call with
              | .error e => (.error e, s2)
              | .ok c2 =>
                match s2.call_context_read e2 c2.call_id
                    .RwCounterEndOfReversion c2.rw_counter_end_of_reversion with
                | .error e => (.error e, s2)
                | .ok (s3, e3) =>
                  match s3.call with
                  | .error e => (.error e, s3)
                  | .ok c3 =>
                    match s3.call_context_read e3 c3.call_id
                        .IsPersistent c3.is_persistent.toNat with
                    | .error e => (.error e, s3)
                    | .ok (s4, e4) =>
                      -- Update transaction access list for account address.
                      let is_warm :=
                        s4.sdb.check_account_in_access_list address
                      match s4.push_op_reversible e4
                          (.TxAccessListAccountOp s4.tx_id address true is_warm) with
                      | .error e => (.error e, s4)
                      | .ok (s5, e5) =>
                        -- Read account balance.
                        let account := (s5.sdb.get_account address).2
                        let acc_exists := !account.is_empty
                        let balance := account.balance
                        let code_hash := if acc_exists then account.code_hash else 0
                        match s5.account_read e5 address .CodeHash code_hash with
                        | .error e => (.error e, s5)
                        | .ok (s6, e6) =>
                          match (if acc_exists then
                                   s6.account_read e6 address .Balance balance
                                 else .ok (s6, e6)) with
                          | .error e => (.error e, s6)
                          | .ok (s7, e7) =>
                            -- Write the BALANCE result to stack.
                            match stackAssertEqNext enable_stack geth_steps balance with
                            | .error e => (.error e, s7)
                            | .ok _ =>
                              match s7.stack_push e7 balance with
                              | .error e => (.error e, s7)
                              | .ok (s8, e8) => (.ok [e8], s8)

theorem StateDB.apply_op_accounts (sdb : StateDB) (op : Op) :
    (sdb.apply_op op).accounts = sdb.accounts := by
  cases op with
  | TxAccessListAccountOp t a w wp =>
    cases w
    · rfl
    · show (sdb.add_account_to_access_list a).accounts = sdb.accounts
      unfold StateDB.add_account_to_access_list
      split <;> rfl
  | StackOp c a v => rfl
  | CallContextOp c f v => rfl
  | AccountOp a f v vp => rfl

@[simp] theorem StateDB.get_account_apply_op (sdb : StateDB) (op : Op) (a : Nat) :
    (sdb.apply_op op).get_account a = sdb.get_account a := by
  simp [StateDB.get_account, StateDB.apply_op_accounts]

/-- Success-path characterization of the BALANCE handler (verification
mode off): with an active call frame, a non-empty tracked stack whose
popped remainder is below the stack capacity, the handler returns exactly
one execution step whose recorded operations are, in order: the stack pop
of the address word, the three call-context reads, the reversible
access-list write, the code-hash read, the balance read when the account
exists, and the stack push of the balance. -/
theorem Balance.gen_associated_ops_ok
    (ops0 : List Operation) (w : Nat) (stk : List Nat) (c : Call) (tx : Nat)
    (sdb : StateDB) (pend : List Operation) (g : GethExecStep)
    (rest : List GethExecStep) (hlen : stk.length < 1024) :
    Balance.gen_associated_ops false ⟨ops0, w :: stk, some c, tx, sdb, pend⟩
      (g :: rest) =
    (let address := toAddress w
     let is_warm := sdb.check_account_in_access_list address
     let account := (sdb.get_account address).2
     let ch := if account.is_empty then 0 else account.code_hash
     let L : List Operation :=
       [⟨.READ, .StackOp c.call_id (1024 - (stk.length + 1)) w⟩,
        ⟨.READ, .CallContextOp c.call_id .TxId tx⟩,
        ⟨.READ, .CallContextOp c.call_id .RwCounterEndOfReversion
           c.rw_counter_end_of_reversion⟩,
        ⟨.READ, .CallContextOp c.call_id .IsPersistent c.is_persistent.toNat⟩,
        ⟨.WRITE, .TxAccessListAccountOp tx address true is_warm⟩,
        ⟨.READ, .AccountOp address .CodeHash ch ch⟩] ++
       (if account.is_empty then []
        else [⟨.READ, .AccountOp address .Balance account.balance
                 account.balance⟩]) ++
       [⟨.WRITE, .StackOp c.call_id (1024 - (stk.length + 1)) account.balance⟩]
     (.ok [⟨g.pc, g.op, g.gas, c.call_id, L⟩],
      ⟨ops0 ++ L, account.balance :: stk, some c, tx,
       sdb.apply_op (.TxAccessListAccountOp tx address true is_warm),
       ⟨.WRITE, .TxAccessListAccountOp tx address is_warm true⟩ :: pend⟩)) := by
  have hle : ¬ (1024 ≤ stk.length) := Nat.not_le.mpr hlen
  cases hAcc : ((sdb.get_account (toAddress w)).2).is_empty <;>
    simp [Balance.gen_associated_ops, CircuitInputStateRef.new_step,
      CircuitInputStateRef.stack_pop, CircuitInputStateRef.record,
      CircuitInputStateRef.call, CircuitInputStateRef.call_context_read,
      CircuitInputStateRef.push_op_reversible, CircuitInputStateRef.account_read,
      CircuitInputStateRef.stack_push, stackAssertEq, stackAssertEqNext,
      Op.reverse, hAcc, hle]

deriving instance DecidableEq for Except

theorem Account.is_empty_fields {a : Account} (h : a.is_empty = true) :
    a.balance = 0 ∧ a.code_hash = 0 := by
  have h' := h
  simp [Account.is_empty] at h'
  exact ⟨h'.1.2, h'.2⟩

/-- Whether a recorded payload is an account-field operation. -/
def Op.isAccount : Op → Bool
  | .AccountOp _ _ _ _ => true
  | _ => false

/-- Whether a recorded payload is a transaction-access-list operation. -/
def Op.isTxAccessList : Op → Bool
  | .TxAccessListAccountOp _ _ _ _ => true
  | _ => false

theorem StateDB.check_after_add (sdb : StateDB) (a : Nat) :
    (sdb.add_account_to_access_list a).check_account_in_access_list a = true := by
  unfold StateDB.add_account_to_access_list StateDB.check_account_in_access_list
  split
  · assumption
  · simp

/-- The account address used by the repository's balance handler tests. -/
def testAddress : Nat := 0xaabbccddee000000000000000000000000000000

/-- The call frame of the concrete scenarios: call id 1, reversion
boundary 0, persistent. -/
def callExample : Call := ⟨1, 0, true⟩

/-- Scenario A state database: the queried address does not exist. -/
def sdbA : StateDB := ⟨[], []⟩

/-- Scenario B state database: the queried address holds balance 800 and
is cold. -/
def sdbB : StateDB := ⟨[(testAddress, ⟨0, 800, 7⟩)], []⟩

/-- Scenario C state database: as B but the address is already warm. -/
def sdbC : StateDB := ⟨[(testAddress, ⟨0, 800, 7⟩)], [testAddress]⟩

/-- Scenario A State Reference: address word on the stack, call frame
active, transaction 1, no account for the address. -/
def stateA : CircuitInputStateRef := ⟨[], [testAddress], some callExample, 1, sdbA, []⟩

/-- Scenario B State Reference: as A but the account exists with
balance 800 and is cold. -/
def stateB : CircuitInputStateRef := ⟨[], [testAddress], some callExample, 1, sdbB, []⟩

/-- Scenario C State Reference: as B but the address is already warm. -/
def stateC : CircuitInputStateRef := ⟨[], [testAddress], some callExample, 1, sdbC, []⟩

/-- The raw trace step of the concrete scenarios: a BALANCE instruction
(byte 0x31) with the address word on the traced stack. -/
def gethBalanceStep : GethExecStep := ⟨0, 0x31, 100, [testAddress]⟩

/-- Claim C1 (amended): translating a BALANCE instruction that queries a
non-existent address records exactly seven operations — one stack pop,
three call-context reads, one transaction-access-list write, one
code-hash read of value zero, and the stack write pushing the result —
and the value pushed onto the stack is zero. -/
theorem balance_non_existent_records (ops0 : List Operation) (w : Nat)
    (stk : List Nat) (c : Call) (tx : Nat) (sdb : StateDB)
    (pend : List Operation) (g : GethExecStep) (rest : List GethExecStep)
    (hlen : stk.length < 1024)
    (hempty : ((sdb.get_account (toAddress w)).2).is_empty = true) :
    (Balance.gen_associated_ops false ⟨ops0, w :: stk, some c, tx, sdb, pend⟩
        (g :: rest)).1 =
      .ok [⟨g.pc, g.op, g.gas, c.call_id,
        [⟨.READ, .StackOp c.call_id (1024 - (stk.length + 1)) w⟩,
         ⟨.READ, .CallContextOp c.call_id .TxId tx⟩,
         ⟨.READ, .CallContextOp c.call_id .RwCounterEndOfReversion
            c.rw_counter_end_of_reversion⟩,
         ⟨.READ, .CallContextOp c.call_id .IsPersistent c.is_persistent.toNat⟩,
         ⟨.WRITE, .TxAccessListAccountOp tx (toAddress w) true
            (sdb.check_account_in_access_list (toAddress w))⟩,
         ⟨.READ, .AccountOp (toAddress w) .CodeHash 0 0⟩,
         ⟨.WRITE, .StackOp c.call_id (1024 - (stk.length + 1)) 0⟩]⟩] := by
  have hb := (Account.is_empty_fields hempty).1
  rw [Balance.gen_associated_ops_ok ops0 w stk c tx sdb pend g rest hlen]
  simp [hempty, hb]

/-- Claim C1, counterexample to the operation count as stated: in the
concrete non-existent-address scenario the handler records seven
operations, not six — the stack write pushing the zero result is itself
a recorded operation. -/
theorem balance_non_existent_six_refuted :
    ((Balance.gen_associated_ops false stateA [gethBalanceStep]).1.map
        (fun steps => steps.map fun st => st.ops.length) = .ok [7])
    ∧ ((Except.ok [7] : Except Err (List Nat)) ≠ .ok [6]) :=
  ⟨by decide, by decide⟩

/-- Witness for `balance_non_existent_records` at the concrete scenario A
input. -/
theorem balance_non_existent_records_witness :
    (Balance.gen_associated_ops false stateA [gethBalanceStep]).1 =
      .ok [⟨0, 0x31, 100, 1,
        [⟨.READ, .StackOp 1 1023 testAddress⟩,
         ⟨.READ, .CallContextOp 1 .TxId 1⟩,
         ⟨.READ, .CallContextOp 1 .RwCounterEndOfReversion 0⟩,
         ⟨.READ, .CallContextOp 1 .IsPersistent 1⟩,
         ⟨.WRITE, .TxAccessListAccountOp 1 testAddress true false⟩,
         ⟨.READ, .AccountOp testAddress .CodeHash 0 0⟩,
         ⟨.WRITE, .StackOp 1 1023 0⟩]⟩] :=
  balance_non_existent_records [] testAddress [] callExample 1 sdbA []
    gethBalanceStep [] (by decide) (by decide)

/-- Claim C2 (amended): translating a BALANCE instruction that queries an
existing account with balance 800 that is cold in the transaction records
exactly eight operations — the seven of the non-existent case plus a
balance Read of 800 between the code-hash read and the stack write — the
value pushed onto the stack is 800, and the recorded access-list write
has is_warm_prev = false. -/
theorem balance_existing_cold_records (ops0 : List Operation) (w : Nat)
    (stk : List Nat) (c : Call) (tx : Nat) (sdb : StateDB)
    (pend : List Operation) (g : GethExecStep) (rest : List GethExecStep)
    (hlen : stk.length < 1024)
    (hex : ((sdb.get_account (toAddress w)).2).is_empty = false)
    (hbal : ((sdb.get_account (toAddress w)).2).balance = 800)
    (hcold : sdb.check_account_in_access_list (toAddress w) = false) :
    (Balance.gen_associated_ops false ⟨ops0, w :: stk, some c, tx, sdb, pend⟩
        (g :: rest)).1 =
      .ok [⟨g.pc, g.op, g.gas, c.call_id,
        [⟨.READ, .StackOp c.call_id (1024 - (stk.length + 1)) w⟩,
         ⟨.READ, .CallContextOp c.call_id .TxId tx⟩,
         ⟨.READ, .CallContextOp c.call_id .RwCounterEndOfReversion
            c.rw_counter_end_of_reversion⟩,
         ⟨.READ, .CallContextOp c.call_id .IsPersistent c.is_persistent.toNat⟩,
         ⟨.WRITE, .TxAccessListAccountOp tx (toAddress w) true false⟩,
         ⟨.READ, .AccountOp (toAddress w) .CodeHash
            ((sdb.get_account (toAddress w)).2).code_hash
            ((sdb.get_account (toAddress w)).2).code_hash⟩,
         ⟨.READ, .AccountOp (toAddress w) .Balance 800 800⟩,
         ⟨.WRITE, .StackOp c.call_id (1024 - (stk.length + 1)) 800⟩]⟩] := by
  rw [Balance.gen_associated_ops_ok ops0 w stk c tx sdb pend g rest hlen]
  simp [hex, hbal, hcold]

/-- Claim C2, counterexample to the operation count as stated: in the
concrete existing-cold scenario with balance 800 the handler records
eight operations, not seven — the stack write pushing the result is
itself a recorded operation. -/
theorem balance_existing_cold_seven_refuted :
    ((Balance.gen_associated_ops false stateB [gethBalanceStep]).1.map
        (fun steps => steps.map fun st => st.ops.length) = .ok [8])
    ∧ ((Except.ok [8] : Except Err (List Nat)) ≠ .ok [7]) :=
  ⟨by decide, by decide⟩

/-- Witness for `balance_existing_cold_records` at the concrete scenario B
input. -/
theorem balance_existing_cold_records_witness :
    (Balance.gen_associated_ops false stateB [gethBalanceStep]).1 =
      .ok [⟨0, 0x31, 100, 1,
        [⟨.READ, .StackOp 1 1023 testAddress⟩,
         ⟨.READ, .CallContextOp 1 .TxId 1⟩,
         ⟨.READ, .CallContextOp 1 .RwCounterEndOfReversion 0⟩,
         ⟨.READ, .CallContextOp 1 .IsPersistent 1⟩,
         ⟨.WRITE, .TxAccessListAccountOp 1 testAddress true false⟩,
         ⟨.READ, .AccountOp testAddress .CodeHash 7 7⟩,
         ⟨.READ, .AccountOp testAddress .Balance 800 800⟩,
         ⟨.WRITE, .StackOp 1 1023 800⟩]⟩] :=
  balance_existing_cold_records [] testAddress [] callExample 1 sdbB []
    gethBalanceStep [] (by decide) (by decide) (by decide) (by decide)

/-- Claim C3: among the operations recorded by the BALANCE handler for a
queried address, the account-field reads are exactly one code-hash Read
of value zero when the account does not exist (no balance Read at all),
and the code-hash Read followed by the balance Read, in that order, when
the account exists. -/
theorem balance_existence_asymmetry (ops0 : List Operation) (w : Nat)
    (stk : List Nat) (c : Call) (tx : Nat) (sdb : StateDB)
    (pend : List Operation) (g : GethExecStep) (rest : List GethExecStep)
    (hlen : stk.length < 1024) :
    ((Balance.gen_associated_ops false ⟨ops0, w :: stk, some c, tx, sdb, pend⟩
        (g :: rest)).1.map fun steps =>
          steps.map fun st => st.ops.filter fun o => o.op.isAccount) =
      .ok [if ((sdb.get_account (toAddress w)).2).is_empty then
             [⟨.READ, .AccountOp (toAddress w) .CodeHash 0 0⟩]
           else
             [⟨.READ, .AccountOp (toAddress w) .CodeHash
                ((sdb.get_account (toAddress w)).2).code_hash
                ((sdb.get_account (toAddress w)).2).code_hash⟩,
              ⟨.READ, .AccountOp (toAddress w) .Balance
                ((sdb.get_account (toAddress w)).2).balance
                ((sdb.get_account (toAddress w)).2).balance⟩]] := by
  rw [Balance.gen_associated_ops_ok ops0 w stk c tx sdb pend g rest hlen]
  cases hAcc : ((sdb.get_account (toAddress w)).2).is_empty <;>
    simp [hAcc, Op.isAccount, Except.map, List.filter]

/-- Witness for `balance_existence_asymmetry` at the concrete scenario A
input (non-existent account). -/
theorem balance_existence_asymmetry_witness :
    ((Balance.gen_associated_ops false stateA [gethBalanceStep]).1.map
        fun steps => steps.map fun st => st.ops.filter fun o => o.op.isAccount) =
      .ok [[⟨.READ, .AccountOp testAddress .CodeHash 0 0⟩]] :=
  (balance_existence_asymmetry [] testAddress [] callExample 1 sdbA []
    gethBalanceStep [] (by decide)).trans (by decide)

/-- Claim C4: the BALANCE handler appends operations to the State
Reference in exactly this order — stack pop of the address word;
call-context reads of the transaction id, the reversion boundary and the
persistence flag; the reversible transaction-access-list write marking
the address warm; the account code-hash read; only if the account exists,
its balance read; and finally the stack push of the balance (zero when
the account does not exist, since an empty account's balance is zero).
The same list is appended to the operation container and recorded in the
step. -/
theorem balance_operation_order (ops0 : List Operation) (w : Nat)
    (stk : List Nat) (c : Call) (tx : Nat) (sdb : StateDB)
    (pend : List Operation) (g : GethExecStep) (rest : List GethExecStep)
    (hlen : stk.length < 1024) :
    Balance.gen_associated_ops false ⟨ops0, w :: stk, some c, tx, sdb, pend⟩
      (g :: rest) =
    (let address := toAddress w
     let is_warm := sdb.check_account_in_access_list address
     let account := (sdb.get_account address).2
     let ch := if account.is_empty then 0 else account.code_hash
     let L : List Operation :=
       [⟨.READ, .StackOp c.call_id (1024 - (stk.length + 1)) w⟩,
        ⟨.READ, .CallContextOp c.call_id .TxId tx⟩,
        ⟨.READ, .CallContextOp c.call_id .RwCounterEndOfReversion
           c.rw_counter_end_of_reversion⟩,
        ⟨.READ, .CallContextOp c.call_id .IsPersistent c.is_persistent.toNat⟩,
        ⟨.WRITE, .TxAccessListAccountOp tx address true is_warm⟩,
        ⟨.READ, .AccountOp address .CodeHash ch ch⟩] ++
       (if account.is_empty then []
        else [⟨.READ, .AccountOp address .Balance account.balance
                 account.balance⟩]) ++
       [⟨.WRITE, .StackOp c.call_id (1024 - (stk.length + 1)) account.balance⟩]
     (.ok [⟨g.pc, g.op, g.gas, c.call_id, L⟩],
      ⟨ops0 ++ L, account.balance :: stk, some c, tx,
       sdb.apply_op (.TxAccessListAccountOp tx address true is_warm),
       ⟨.WRITE, .TxAccessListAccountOp tx address is_warm true⟩ :: pend⟩)) :=
  Balance.gen_associated_ops_ok ops0 w stk c tx sdb pend g rest hlen

/-- Witness for `balance_operation_order` at the concrete scenario B
input. -/
theorem balance_operation_order_witness :
    Balance.gen_associated_ops false stateB [gethBalanceStep] =
      (.ok [⟨0, 0x31, 100, 1,
        [⟨.READ, .StackOp 1 1023 testAddress⟩,
         ⟨.READ, .CallContextOp 1 .TxId 1⟩,
         ⟨.READ, .CallContextOp 1 .RwCounterEndOfReversion 0⟩,
         ⟨.READ, .CallContextOp 1 .IsPersistent 1⟩,
         ⟨.WRITE, .TxAccessListAccountOp 1 testAddress true false⟩,
         ⟨.READ, .AccountOp testAddress .CodeHash 7 7⟩,
         ⟨.READ, .AccountOp testAddress .Balance 800 800⟩,
         ⟨.WRITE, .StackOp 1 1023 800⟩]⟩],
       ⟨[⟨.READ, .StackOp 1 1023 testAddress⟩,
         ⟨.READ, .CallContextOp 1 .TxId 1⟩,
         ⟨.READ, .CallContextOp 1 .RwCounterEndOfReversion 0⟩,
         ⟨.READ, .CallContextOp 1 .IsPersistent 1⟩,
         ⟨.WRITE, .TxAccessListAccountOp 1 testAddress true false⟩,
         ⟨.READ, .AccountOp testAddress .CodeHash 7 7⟩,
         ⟨.READ, .AccountOp testAddress .Balance 800 800⟩,
         ⟨.WRITE, .StackOp 1 1023 800⟩],
        [800], some callExample, 1,
        ⟨[(testAddress, ⟨0, 800, 7⟩)], [testAddress]⟩,
        [⟨.WRITE, .TxAccessListAccountOp 1 testAddress false true⟩]⟩) :=
  (balance_operation_order [] testAddress [] callExample 1 sdbB []
    gethBalanceStep [] (by decide)).trans (by decide)

/-- Override the previous-warmness flag of a transaction-access-list
operation to `true`, leaving every other operation unchanged: the shape
of the only difference between a cold and a warm BALANCE translation. -/
def warmOverride : Operation → Operation
  | ⟨rw, .TxAccessListAccountOp t a iw _⟩ => ⟨rw, .TxAccessListAccountOp t a iw true⟩
  | o => o

/-- Claim C5: the access-list transition recorded by the BALANCE handler
is exactly one transaction-access-list Write carrying is_warm = true and
is_warm_prev equal to the pre-access warm state of the address; a warm
run differs from a cold run on the same accounts only in that flag (so
operation count and ordering are otherwise identical); and after a run
the address is warm, so a later query in the same transaction records
is_warm_prev = true. -/
theorem balance_access_list_write (ops0 : List Operation) (w : Nat)
    (stk : List Nat) (c : Call) (tx : Nat) (sdb : StateDB)
    (pend : List Operation) (g : GethExecStep) (rest : List GethExecStep)
    (hlen : stk.length < 1024) :
    (((Balance.gen_associated_ops false ⟨ops0, w :: stk, some c, tx, sdb, pend⟩
        (g :: rest)).1.map fun steps =>
          steps.map fun st => st.ops.filter fun o => o.op.isTxAccessList) =
      .ok [[⟨.WRITE, .TxAccessListAccountOp tx (toAddress w) true
        (sdb.check_account_in_access_list (toAddress w))⟩]])
    ∧ (∀ sdbW : StateDB, sdbW.accounts = sdb.accounts →
        sdb.check_account_in_access_list (toAddress w) = false →
        sdbW.check_account_in_access_list (toAddress w) = true →
        ((Balance.gen_associated_ops false ⟨ops0, w :: stk, some c, tx, sdbW, pend⟩
            (g :: rest)).1.map fun steps => steps.map fun st => st.ops) =
        ((Balance.gen_associated_ops false ⟨ops0, w :: stk, some c, tx, sdb, pend⟩
            (g :: rest)).1.map fun steps =>
              steps.map fun st => st.ops.map warmOverride))
    ∧ ((Balance.gen_associated_ops false ⟨ops0, w :: stk, some c, tx, sdb, pend⟩
        (g :: rest)).2.sdb.check_account_in_access_list (toAddress w) = true) := by
  refine ⟨?_, ?_, ?_⟩
  · rw [Balance.gen_associated_ops_ok ops0 w stk c tx sdb pend g rest hlen]
    cases hAcc : ((sdb.get_account (toAddress w)).2).is_empty <;>
      simp [hAcc, Op.isTxAccessList, Except.map, List.filter]
  · intro sdbW hacc hcold hwarm
    have hga : sdbW.get_account (toAddress w) = sdb.get_account (toAddress w) := by
      simp [StateDB.get_account, hacc]
    rw [Balance.gen_associated_ops_ok ops0 w stk c tx sdbW pend g rest hlen,
      Balance.gen_associated_ops_ok ops0 w stk c tx sdb pend g rest hlen]
    cases hAcc : ((sdb.get_account (toAddress w)).2).is_empty <;>
      simp [hga, hAcc, hcold, hwarm, warmOverride, Except.map]
  · rw [Balance.gen_associated_ops_ok ops0 w stk c tx sdb pend g rest hlen]
    simp [StateDB.apply_op, StateDB.check_after_add]

/-- Witness for `balance_access_list_write` at the concrete scenario B
input, with scenario C (same accounts, address already warm) as the warm
run. -/
theorem balance_access_list_write_witness :
    (((Balance.gen_associated_ops false stateB [gethBalanceStep]).1.map
        fun steps =>
          steps.map fun st => st.ops.filter fun o => o.op.isTxAccessList) =
      .ok [[⟨.WRITE, .TxAccessListAccountOp 1 testAddress true false⟩]])
    ∧ (((Balance.gen_associated_ops false stateC [gethBalanceStep]).1.map
          fun steps => steps.map fun st => st.ops) =
        ((Balance.gen_associated_ops false stateB [gethBalanceStep]).1.map
          fun steps => steps.map fun st => st.ops.map warmOverride))
    ∧ ((Balance.gen_associated_ops false stateB
          [gethBalanceStep]).2.sdb.check_account_in_access_list testAddress = true) := by
  have h := balance_access_list_write [] testAddress [] callExample 1 sdbB []
    gethBalanceStep [] (by decide)
  exact ⟨h.1.trans (by decide), h.2.1 sdbC (by decide) (by decide) (by decide),
    h.2.2⟩

/-- Claim C6: with verification mode enabled, the popped address word is
cross-checked against the traced stack top and the balance about to be
pushed is cross-checked against the next trace step's stack top; either
mismatch makes the handler signal a Trace-Inconsistency failure, aborting
the translation of the current block. -/
theorem balance_trace_crosscheck (ops0 : List Operation) (w : Nat)
    (stk : List Nat) (c : Call) (tx : Nat) (sdb : StateDB)
    (pend : List Operation) (g : GethExecStep) (rest : List GethExecStep)
    (t t2 : Nat) :
    (g.stack_last = .ok t → w ≠ t →
      (Balance.gen_associated_ops true ⟨ops0, w :: stk, some c, tx, sdb, pend⟩
        (g :: rest)).1 = .error .TraceInconsistency)
    ∧ (∀ g2 rest2, rest = g2 :: rest2 → g.stack_last = .ok w →
        g2.stack_last = .ok t2 →
        t2 ≠ ((sdb.get_account (toAddress w)).2).balance →
        (Balance.gen_associated_ops true ⟨ops0, w :: stk, some c, tx, sdb, pend⟩
          (g :: rest)).1 = .error .TraceInconsistency) := by
  constructor
  · intro h1 h2
    simp [Balance.gen_associated_ops, CircuitInputStateRef.new_step,
      CircuitInputStateRef.stack_pop, CircuitInputStateRef.record,
      stackAssertEq, h1, h2]
  · intro g2 rest2 hr h1 h2 hne
    subst hr
    cases hAcc : ((sdb.get_account (toAddress w)).2).is_empty <;>
      simp [Balance.gen_associated_ops, CircuitInputStateRef.new_step,
        CircuitInputStateRef.stack_pop, CircuitInputStateRef.record,
        CircuitInputStateRef.call, CircuitInputStateRef.call_context_read,
        CircuitInputStateRef.push_op_reversible, CircuitInputStateRef.account_read,
        stackAssertEq, stackAssertEqNext, h1, h2, hne, hAcc]

/-- Witness for `balance_trace_crosscheck`: a concrete address-word
mismatch (traced top 5) and a concrete pushed-balance mismatch (next
step's traced top 999 against balance 800), both signalling
Trace-Inconsistency. -/
theorem balance_trace_crosscheck_witness :
    ((Balance.gen_associated_ops true
        ⟨[], [testAddress], some callExample, 1, sdbB, []⟩
        [⟨0, 0x31, 100, [5]⟩]).1 = .error .TraceInconsistency)
    ∧ ((Balance.gen_associated_ops true
        ⟨[], [testAddress], some callExample, 1, sdbB, []⟩
        [gethBalanceStep, ⟨1, 0, 90, [999]⟩]).1 = .error .TraceInconsistency) := by
  have h := balance_trace_crosscheck [] testAddress [] callExample 1 sdbB []
    ⟨0, 0x31, 100, [5]⟩ [] 5 999
  have h2 := balance_trace_crosscheck [] testAddress [] callExample 1 sdbB []
    gethBalanceStep [⟨1, 0, 90, [999]⟩] 5 999
  exact ⟨h.1 (by decide) (by decide),
    h2.2 ⟨1, 0, 90, [999]⟩ [] rfl (by decide) (by decide) (by decide)⟩

/-- Claim C7: every fallible State Reference operation invoked by the
BALANCE handler propagates its error to the caller: an empty trace
window, a missing call frame at `new_step`, an empty tracked stack at
`stack_pop`, a verification-mode mismatch after the pop, and a stack
overflow at the final `stack_push` each make the handler return that
first error immediately — the state carries exactly the operations
recorded before the failing primitive, none after it, and no Execution
Step Record is produced. -/
theorem balance_error_propagation (flag : Bool) (ops0 : List Operation)
    (stack0 : List Nat) (call0 : Option Call) (tx : Nat) (sdb : StateDB)
    (pend : List Operation) (gs : List GethExecStep) :
    (gs = [] →
      Balance.gen_associated_ops flag ⟨ops0, stack0, call0, tx, sdb, pend⟩ gs =
        (.error .InvalidGethExecTrace, ⟨ops0, stack0, call0, tx, sdb, pend⟩))
    ∧ (∀ g rest, gs = g :: rest → call0 = none →
        Balance.gen_associated_ops flag ⟨ops0, stack0, call0, tx, sdb, pend⟩ gs =
          (.error .MissingContext, ⟨ops0, stack0, call0, tx, sdb, pend⟩))
    ∧ (∀ g rest c, gs = g :: rest → call0 = some c → stack0 = [] →
        Balance.gen_associated_ops flag ⟨ops0, stack0, call0, tx, sdb, pend⟩ gs =
          (.error .InvariantViolation, ⟨ops0, stack0, call0, tx, sdb, pend⟩))
    ∧ (∀ g rest c w stk t, gs = g :: rest → call0 = some c →
        stack0 = w :: stk → g.stack_last = .ok t → w ≠ t →
        Balance.gen_associated_ops true ⟨ops0, stack0, call0, tx, sdb, pend⟩ gs =
          (.error .TraceInconsistency,
           ⟨ops0 ++ [⟨.READ, .StackOp c.call_id (1024 - (stk.length + 1)) w⟩],
            stk, some c, tx, sdb, pend⟩))
    ∧ (∀ g rest c w stk, gs = g :: rest → call0 = some c →
        stack0 = w :: stk → 1024 ≤ stk.length →
        Balance.gen_associated_ops false ⟨ops0, stack0, call0, tx, sdb, pend⟩ gs =
          (.error .InvariantViolation,
           let address := toAddress w
           let is_warm := sdb.check_account_in_access_list address
           let account := (sdb.get_account address).2
           let ch := if account.is_empty then 0 else account.code_hash
           ⟨ops0 ++
             ([⟨.READ, .StackOp c.call_id (1024 - (stk.length + 1)) w⟩,
               ⟨.READ, .CallContextOp c.call_id .TxId tx⟩,
               ⟨.READ, .CallContextOp c.call_id .RwCounterEndOfReversion
                  c.rw_counter_end_of_reversion⟩,
               ⟨.READ, .CallContextOp c.call_id .IsPersistent
                  c.is_persistent.toNat⟩,
               ⟨.WRITE, .TxAccessListAccountOp tx address true is_warm⟩,
               ⟨.READ, .AccountOp address .CodeHash ch ch⟩] ++
              (if account.is_empty then []
               else [⟨.READ, .AccountOp address .Balance account.balance
                        account.balance⟩])),
            stk, some c, tx,
            sdb.apply_op (.TxAccessListAccountOp tx address true is_warm),
            ⟨.WRITE, .TxAccessListAccountOp tx address is_warm true⟩ :: pend⟩)) := by
  refine ⟨?_, ?_, ?_, ?_, ?_⟩
  · intro h; subst h; rfl
  · intro g rest hgs hc; subst hgs; subst hc
    simp [Balance.gen_associated_ops, CircuitInputStateRef.new_step]
  · intro g rest c hgs hc hstk; subst hgs; subst hc; subst hstk
    simp [Balance.gen_associated_ops, CircuitInputStateRef.new_step,
      CircuitInputStateRef.stack_pop]
  · intro g rest c w stk t hgs hc hstk hlast hne
    subst hgs; subst hc; subst hstk
    simp [Balance.gen_associated_ops, CircuitInputStateRef.new_step,
      CircuitInputStateRef.stack_pop, CircuitInputStateRef.record,
      stackAssertEq, hlast, hne]
  · intro g rest c w stk hgs hc hstk hover
    subst hgs; subst hc; subst hstk
    cases hAcc : ((sdb.get_account (toAddress w)).2).is_empty <;>
      simp [Balance.gen_associated_ops, CircuitInputStateRef.new_step,
        CircuitInputStateRef.stack_pop, CircuitInputStateRef.record,
        CircuitInputStateRef.call, CircuitInputStateRef.call_context_read,
        CircuitInputStateRef.push_op_reversible,
        CircuitInputStateRef.account_read, CircuitInputStateRef.stack_push,
        stackAssertEq, stackAssertEqNext, Op.reverse, hAcc, hover]

/-- Witness for `balance_error_propagation`: the empty trace window and
the empty-stack underflow, both at concrete inputs, return the error
with the state unchanged. -/
theorem balance_error_propagation_witness :
    (Balance.gen_associated_ops false stateB [] =
      (.error .InvalidGethExecTrace, stateB))
    ∧ (Balance.gen_associated_ops false
        ⟨[], [], some callExample, 1, sdbB, []⟩ [gethBalanceStep] =
      (.error .InvariantViolation, ⟨[], [], some callExample, 1, sdbB, []⟩)) :=
  ⟨(balance_error_propagation false [] [testAddress] (some callExample) 1
      sdbB [] []).1 rfl,
   (balance_error_propagation false [] [] (some callExample) 1 sdbB []
      [gethBalanceStep]).2.2.1 gethBalanceStep [] callExample rfl rfl rfl⟩

/-- Claim C8: whatever the input state, trace window and verification
flag, a successful BALANCE translation produces exactly one Execution
Step Record — BALANCE is not call-like and spawns no further frame. -/
theorem balance_single_exec_step (flag : Bool) (s : CircuitInputStateRef)
    (gs : List GethExecStep) (steps : List ExecStep)
    (s' : CircuitInputStateRef)
    (h : Balance.gen_associated_ops flag s gs = (.ok steps, s')) :
    steps.length = 1 := by
  cases gs with
  | nil => simp [Balance.gen_associated_ops] at h
  | cons g rest =>
    simp only [Balance.gen_associated_ops] at h
    repeat' split at h
    all_goals injection h with h1 h2
    all_goals first
      | exact Except.noConfusion h1
      | (injection h1 with h3; subst h3; rfl)

/-- Witness for `balance_single_exec_step` at the concrete scenario A
input. -/
theorem balance_single_exec_step_witness :
    [(⟨0, 0x31, 100, 1,
        [⟨.READ, .StackOp 1 1023 testAddress⟩,
         ⟨.READ, .CallContextOp 1 .TxId 1⟩,
         ⟨.READ, .CallContextOp 1 .RwCounterEndOfReversion 0⟩,
         ⟨.READ, .CallContextOp 1 .IsPersistent 1⟩,
         ⟨.WRITE, .TxAccessListAccountOp 1 testAddress true false⟩,
         ⟨.READ, .AccountOp testAddress .CodeHash 0 0⟩,
         ⟨.WRITE, .StackOp 1 1023 0⟩]⟩ : ExecStep)].length = 1 :=
  balance_single_exec_step false stateA [gethBalanceStep] _
    ⟨[⟨.READ, .StackOp 1 1023 testAddress⟩,
      ⟨.READ, .CallContextOp 1 .TxId 1⟩,
      ⟨.READ, .CallContextOp 1 .RwCounterEndOfReversion 0⟩,
      ⟨.READ, .CallContextOp 1 .IsPersistent 1⟩,
      ⟨.WRITE, .TxAccessListAccountOp 1 testAddress true false⟩,
      ⟨.READ, .AccountOp testAddress .CodeHash 0 0⟩,
      ⟨.WRITE, .StackOp 1 1023 0⟩],
     [0], some callExample, 1, ⟨[], [testAddress]⟩,
     [⟨.WRITE, .TxAccessListAccountOp 1 testAddress false true⟩]⟩
    (by decide)

/-- `rlc::value` from the evm-circuit utilities (outside the provided
sources — modelled from the spec of the gadget's assignment): fold the
value sequence as `acc * randomness + value`.  The gadget assigns its RLC
cells `rlc::value(bytes.iter().rev(), challenge)`, i.e. this fold over
the reversed byte list. -/
def rlc.value {F : Type} [CommRing F] (values : List Nat) (randomness : F) : F :=
  values.foldl (fun acc v => acc * randomness + (v : F)) 0

/-- `select::expr` from the gadget utilities (outside the provided
sources — modelled from the spec: a boolean selector blends the two
branches): `condition * when_true + (1 - condition) * when_false`. -/
def select.expr {F : Type} [CommRing F] (condition when_true when_false : F) : F :=
  condition * when_true + (1 - condition) * when_false

/-- Gas constants of the identity precompile (from the gas schedule,
outside the provided sources): base cost 15, per-word cost 3. -/
def GasCost.PRECOMPILE_IDENTITY_BASE : Nat := 15

/-- Per-32-byte-word gas cost of the identity precompile. -/
def GasCost.PRECOMPILE_IDENTITY_PER_WORD : Nat := 3

/-- Bytes per EVM word. -/
def N_BYTES_WORD : Nat := 32

/-- Byte width of the memory word-size witnesses. -/
def N_BYTES_MEMORY_WORD_SIZE : Nat := 4

/-- Modelled from the spec: the constraints of
`ConstantDivisionGadget::construct(cb, numerator, denominator)` (the
gadget itself is outside the provided sources): quotient and remainder
witnesses satisfying `quotient * denominator + remainder = numerator`
with `remainder < denominator`, the quotient range-checked to `n_bytes`
bytes. -/
def ConstantDivisionGadget.constraints
    (numerator denominator n_bytes quotient remainder : Nat) : Prop :=
  quotient * denominator + remainder = numerator ∧
  remainder < denominator ∧
  quotient < 2 ^ (8 * n_bytes)

/-- One assignment to the cells of the identity-precompile gadget that
the claims speak about: the byte strings behind the three RLC cells, the
Phase-2 challenge, the is_success and gas-left cells, and the witnesses
of the input-word-size division gadget. -/
structure IdentityAssignment (F : Type) where
  input_bytes : List Nat
  output_bytes : List Nat
  return_bytes : List Nat
  challenge : F
  is_success : F
  gas_left : F
  call_data_length : Nat
  quotient : Nat
  remainder : Nat

/-- The value assigned to the gadget's `input_bytes_rlc` cell. -/
def IdentityGadget.input_bytes_rlc {F : Type} [CommRing F]
    (a : IdentityAssignment F) : F :=
  rlc.value a.input_bytes.reverse a.challenge

/-- The value assigned to the gadget's `output_bytes_rlc` cell. -/
def IdentityGadget.output_bytes_rlc {F : Type} [CommRing F]
    (a : IdentityAssignment F) : F :=
  rlc.value a.output_bytes.reverse a.challenge

/-- The input-word-size division constraints of the identity gadget:
`(call_data_length + 31) / 32` via `ConstantDivisionGadget`. -/
def IdentityGadget.input_word_size_constraints {F : Type}
    (a : IdentityAssignment F) : Prop :=
  ConstantDivisionGadget.constraints (a.call_data_length + (N_BYTES_WORD - 1))
    N_BYTES_WORD N_BYTES_MEMORY_WORD_SIZE a.quotient a.remainder

/-- The constraints of `IdentityGadget::configure` on an assignment: the
division-gadget constraints for the input word size, and the
`require_equal` constraint that the input and output RLC cells agree. -/
def IdentityGadget.constraints {F : Type} [CommRing F]
    (a : IdentityAssignment F) : Prop :=
  IdentityGadget.input_word_size_constraints a ∧
  IdentityGadget.input_bytes_rlc a = IdentityGadget.output_bytes_rlc a

/-- The gas-cost expression of `IdentityGadget::configure`:
`select::expr(is_success, BASE + quotient * PER_WORD, gas_left)`. -/
def IdentityGadget.gas_cost {F : Type} [CommRing F]
    (a : IdentityAssignment F) : F :=
  select.expr a.is_success
    ((GasCost.PRECOMPILE_IDENTITY_BASE : F) +
      (a.quotient : F) * (GasCost.PRECOMPILE_IDENTITY_PER_WORD : F))
    a.gas_left

theorem rlc.value_reverse_eq_sum {F : Type} [CommRing F] (l : List Nat) (r : F) :
    rlc.value l.reverse r =
      ∑ i ∈ Finset.range l.length, (l.getD i 0 : F) * r ^ i := by
  induction l with
  | nil => simp [rlc.value]
  | cons b t ih =>
    have hfold : rlc.value ((b :: t).reverse) r =
        rlc.value t.reverse r * r + (b : F) := by
      simp [rlc.value, List.foldl_append]
    rw [hfold, ih, List.length_cons, Finset.sum_range_succ']
    have hmul : (∑ i ∈ Finset.range t.length, (t.getD i 0 : F) * r ^ i) * r =
        ∑ i ∈ Finset.range t.length, (t.getD i 0 : F) * r ^ (i + 1) := by
      rw [Finset.sum_mul]
      exact Finset.sum_congr rfl fun i _ => by ring
    rw [hmul]
    simp

theorem sumPoly_eval {F : Type} [CommRing F] (l : List Nat) (r : F) :
    (∑ i ∈ Finset.range l.length,
        Polynomial.C (l.getD i 0 : F) * Polynomial.X ^ i).eval r =
      rlc.value l.reverse r := by
  rw [rlc.value_reverse_eq_sum]
  simp [Polynomial.eval_finset_sum]

theorem sumPoly_coeff {F : Type} [CommRing F] (l : List Nat) (j : Nat) :
    (∑ i ∈ Finset.range l.length,
        Polynomial.C (l.getD i 0 : F) * Polynomial.X ^ i).coeff j =
      if j < l.length then (l.getD j 0 : F) else 0 := by
  rw [Polynomial.finset_sum_coeff]
  simp only [Polynomial.coeff_C_mul, Polynomial.coeff_X_pow, mul_ite, mul_one,
    mul_zero]
  rw [Finset.sum_ite_eq (Finset.range l.length) j fun i => (l.getD i 0 : F)]
  simp [Finset.mem_range]

/-- Two byte strings of the same length, shorter than the field's
characteristic, whose random linear combinations agree at every
challenge, are equal: the difference polynomial of degree below the field
size vanishes everywhere, hence is zero, and byte values below 256 embed
injectively into a field of more than 256 elements. -/
theorem rlc_agree_all_challenges {p : Nat} (pp : Fact p.Prime)
    (A B : List Nat) (hlen : A.length = B.length) (hltp : A.length < p)
    (hA : ∀ x ∈ A, x < 256) (hB : ∀ x ∈ B, x < 256) (hp256 : 256 < p)
    (hrlc : ∀ r : ZMod p, rlc.value A.reverse r = rlc.value B.reverse r) :
    A = B := by
  haveI := pp
  haveI : NeZero p := ⟨pp.out.ne_zero⟩
  set P : Polynomial (ZMod p) :=
    ∑ i ∈ Finset.range A.length,
      Polynomial.C (A.getD i 0 : ZMod p) * Polynomial.X ^ i with hP
  set Q : Polynomial (ZMod p) :=
    ∑ i ∈ Finset.range B.length,
      Polynomial.C (B.getD i 0 : ZMod p) * Polynomial.X ^ i with hQ
  have heval : ∀ r : ZMod p, (P - Q).eval r = 0 := by
    intro r
    rw [Polynomial.eval_sub, hP, hQ, sumPoly_eval, sumPoly_eval, hrlc r,
      sub_self]
  have hcoeff0 : ∀ N : ℕ, A.length - 1 < N → (P - Q).coeff N = 0 := by
    intro N hN
    have h1 : ¬ (N < A.length) := by omega
    have h2 : ¬ (N < B.length) := by omega
    rw [Polynomial.coeff_sub, hP, hQ, sumPoly_coeff, sumPoly_coeff, if_neg h1,
      if_neg h2, sub_self]
  have hdeg : (P - Q).natDegree < p := by
    have := Polynomial.natDegree_le_iff_coeff_eq_zero.mpr hcoeff0
    omega
  have hzero : P - Q = 0 := by
    refine Polynomial.eq_zero_of_natDegree_lt_card_of_eval_eq_zero (P - Q)
      (f := fun x : ZMod p => x) (fun _ _ h => h) heval ?_
    rwa [ZMod.card]
  have hPQ : P = Q := sub_eq_zero.mp hzero
  refine List.ext_getElem hlen fun i h1 h2 => ?_
  have hcast : (A.getD i 0 : ZMod p) = (B.getD i 0 : ZMod p) := by
    have hc : P.coeff i = Q.coeff i := by rw [hPQ]
    rw [hP, hQ, sumPoly_coeff, sumPoly_coeff, if_pos h1, if_pos h2] at hc
    exact hc
  have hAi : A.getD i 0 < p :=
    lt_trans (hA _ (List.getD_eq_getElem A 0 h1 ▸ List.getElem_mem h1)) hp256
  have hBi : B.getD i 0 < p :=
    lt_trans (hB _ (List.getD_eq_getElem B 0 h2 ▸ List.getElem_mem h2)) hp256
  have hval : A.getD i 0 = B.getD i 0 := by
    have := congrArg ZMod.val hcast
    rwa [ZMod.val_cast_of_lt hAi, ZMod.val_cast_of_lt hBi] at this
  rw [← List.getD_eq_getElem A 0 h1, ← List.getD_eq_getElem B 0 h2, hval]

/-- The modulus of the BN254 scalar field over which the EVM circuit's
expressions are evaluated. -/
def bn254FrModulus : Nat :=
  21888242871839275222246405745257275088548364400416034343698204186575808495617

/-- The circuit's scalar field. -/
abbrev Fr : Type := ZMod bn254FrModulus

/-- A concrete accepted assignment of the identity gadget whose output
byte string differs from its input byte string: at challenge 1 the byte
strings [1, 0] and [0, 1] have the same random linear combination. -/
def identityCollision : IdentityAssignment Fr where
  input_bytes := [1, 0]
  output_bytes := [0, 1]
  return_bytes := []
  challenge := 1
  is_success := 1
  gas_left := 0
  call_data_length := 0
  quotient := 0
  remainder := 31

/-- Claim C9, counterexample to byte-string equality as stated: the
gadget's constraints accept `identityCollision`, an assignment whose
output bytes [0, 1] differ from its input bytes [1, 0] — at a fixed
challenge the random-linear-combination equality does not force the byte
strings to coincide. -/
theorem identity_accepts_distinct_bytes :
    IdentityGadget.constraints identityCollision ∧
    identityCollision.output_bytes ≠ identityCollision.input_bytes := by
  refine ⟨⟨⟨by decide, by decide, by decide⟩, ?_⟩, by decide⟩
  show rlc.value ([1, 0] : List Nat).reverse (1 : Fr) =
    rlc.value ([0, 1] : List Nat).reverse (1 : Fr)
  decide

/-- Claim C9 (amended): the identity gadget constrains the
random-linear-combination of the output bytes to equal that of the input
bytes, so every accepted assignment has equal RLCs at the assignment's
challenge; the byte strings themselves are forced equal only when the
RLC equality holds at every challenge and the lengths agree (for byte
strings shorter than the field size). -/
theorem identity_input_output_rlc :
    (∀ a : IdentityAssignment Fr, IdentityGadget.constraints a →
      rlc.value a.input_bytes.reverse a.challenge =
        rlc.value a.output_bytes.reverse a.challenge)
    ∧ (∀ (p : Nat) (_hp : Fact p.Prime) (A B : List Nat),
        A.length = B.length → A.length < p → (∀ x ∈ A, x < 256) →
        (∀ x ∈ B, x < 256) → 256 < p →
        (∀ r : ZMod p, rlc.value A.reverse r = rlc.value B.reverse r) →
        A = B) :=
  ⟨fun _ h => h.2, fun _ pp A B h1 h2 h3 h4 h5 h6 =>
    rlc_agree_all_challenges pp A B h1 h2 h3 h4 h5 h6⟩

/-- A concrete accepted assignment of the identity gadget with equal
input and output bytes. -/
def identityOkay : IdentityAssignment Fr where
  input_bytes := [42]
  output_bytes := [42]
  return_bytes := [42]
  challenge := 7
  is_success := 1
  gas_left := 0
  call_data_length := 1
  quotient := 1
  remainder := 0

/-- Witness for `identity_input_output_rlc`: the accepted assignment
`identityOkay` has equal input and output RLCs, and the all-challenge
agreement of [3] with itself over the prime field with 65537 elements
yields list equality. -/
theorem identity_input_output_rlc_witness :
    (rlc.value identityOkay.input_bytes.reverse identityOkay.challenge =
      rlc.value identityOkay.output_bytes.reverse identityOkay.challenge)
    ∧ ([3] : List Nat) = [3] :=
  ⟨identity_input_output_rlc.1 identityOkay ⟨⟨by decide, by decide, by decide⟩, rfl⟩,
   identity_input_output_rlc.2 65537 ⟨by norm_num⟩ [3] [3] rfl (by norm_num)
     (by decide) (by decide) (by norm_num) (fun _ => rfl)⟩

/-- Claim C10: under the input-word-size division constraints, the
identity gadget's gas-cost expression equals
PRECOMPILE_IDENTITY_BASE + ((call_data_length + 31) / 32) *
PRECOMPILE_IDENTITY_PER_WORD when is_success is 1, and equals the whole
remaining gas_left when is_success is 0. -/
theorem identity_gas_cost_correct (F : Type) [CommRing F]
    (a : IdentityAssignment F)
    (h : IdentityGadget.input_word_size_constraints a) :
    (a.is_success = 1 →
      IdentityGadget.gas_cost a =
        ((GasCost.PRECOMPILE_IDENTITY_BASE +
            (a.call_data_length + 31) / 32 *
              GasCost.PRECOMPILE_IDENTITY_PER_WORD : Nat) : F))
    ∧ (a.is_success = 0 → IdentityGadget.gas_cost a = a.gas_left) := by
  have h' := h
  simp only [IdentityGadget.input_word_size_constraints,
    ConstantDivisionGadget.constraints, N_BYTES_WORD,
    N_BYTES_MEMORY_WORD_SIZE] at h'
  obtain ⟨hdiv, hrem, -⟩ := h'
  have hq : a.quotient = (a.call_data_length + 31) / 32 := by omega
  constructor
  · intro hs
    simp only [IdentityGadget.gas_cost, select.expr, hs, hq,
      GasCost.PRECOMPILE_IDENTITY_BASE, GasCost.PRECOMPILE_IDENTITY_PER_WORD]
    push_cast
    ring
  · intro hs
    simp only [IdentityGadget.gas_cost, select.expr, hs]
    ring

/-- A concrete unsuccessful identity-precompile assignment: call-data
length 5, gas_left 77, is_success 0. -/
def identityGasFailure : IdentityAssignment (ZMod 65537) where
  input_bytes := []
  output_bytes := []
  return_bytes := []
  challenge := 0
  is_success := 0
  gas_left := 77
  call_data_length := 5
  quotient := 1
  remainder := 4

/-- A concrete successful identity-precompile assignment: call-data
length 5, is_success 1. -/
def identityGasSuccess : IdentityAssignment (ZMod 65537) where
  input_bytes := []
  output_bytes := []
  return_bytes := []
  challenge := 0
  is_success := 1
  gas_left := 77
  call_data_length := 5
  quotient := 1
  remainder := 4

/-- Witness for `identity_gas_cost_correct`: the successful assignment is
charged base 15 plus one word at 3, and the unsuccessful assignment is
charged its whole remaining gas 77. -/
theorem identity_gas_cost_correct_witness :
    (IdentityGadget.gas_cost identityGasSuccess =
      ((GasCost.PRECOMPILE_IDENTITY_BASE +
          (identityGasSuccess.call_data_length + 31) / 32 *
            GasCost.PRECOMPILE_IDENTITY_PER_WORD : Nat) : ZMod 65537))
    ∧ (IdentityGadget.gas_cost identityGasFailure =
        identityGasFailure.gas_left) :=
  ⟨(identity_gas_cost_correct (ZMod 65537) identityGasSuccess
      ⟨by decide, by decide, by decide⟩).1 rfl,
   (identity_gas_cost_correct (ZMod 65537) identityGasFailure
      ⟨by decide, by decide, by decide⟩).2 rfl⟩
